import Mathlib

/-!
Shallow embedding of `finalproject/task_manager.py` (personal task tracker).

A task is a JSON object with fields id, title, description, created_at,
due_date, priority, status, summary.  The store is a single JSON file
holding an array of such objects; every operation loads the whole array,
transforms it in memory and (when mutating) writes the whole array back.

Modelling choices:
* a task record becomes the structure `Task`; the JSON array becomes
  `List Task`; Python ints are `Int`, Python strings are `String`;
* a mutating operation `op(store_path, ...)` becomes a pure function
  `List Task → ... → result × List Task` returning its Python return value
  together with the collection persisted after the call (when the Python
  code does not call `_save`, the persisted collection is the one that was
  loaded, unchanged);
* `datetime.strptime(s, "%Y-%m-%d")` plus the `datetime` range checks are
  modelled by `parseDate`; `datetime.date` comparison is `dateLt`;
  "today" is passed as an explicit parameter;
* Python `str.lower` is modelled per character by `Char.toLower`, and
  `str.startswith` / the `in` operator act on the code-point lists
  (`String.data`);
* Python `sorted(tasks, key=sort_key)` (a stable sort by a tuple key) is
  modelled by `List.mergeSort` with the non-strict lexicographic order on
  the same key; since a stable sort of a list under a total preorder is
  unique, this is the same output Python produces.
-/

namespace TaskManager

/-- One task object, with exactly the fields `add_task` creates and the
rest of `task_manager.py` reads. -/
structure Task where
  id : Int
  title : String
  description : String
  created_at : String
  due_date : Option String
  priority : Int
  status : String
  summary : String
deriving DecidableEq

/-- Outcome of `json.load` on a file that parses: either a top-level JSON
array of task objects, or some other top-level JSON value. -/
inductive JsonTop where
  | arr (ts : List Task)
  | nonArr
deriving DecidableEq

/-- State of the underlying file as `_load` distinguishes it: the path does
not exist, or `json.load` raises (empty file or unparseable text), or the
file parses to a top-level JSON value. -/
inductive FileState where
  | missing
  | unreadable
  | parsed (j : JsonTop)
deriving DecidableEq

/-- `_load` (task_manager.py lines 37–47): missing file, a `json.load`
failure, or a non-list top-level value all yield the empty collection. -/
def load : FileState → List Task
  | .missing => []
  | .unreadable => []
  | .parsed (.arr ts) => ts
  | .parsed .nonArr => []

/-- `_next_id` (line 55–56): `max((t["id"] for t in tasks), default=0) + 1`.
Python's `max` of a nonempty sequence is the fold of binary `max` over its
elements; `default=0` applies only to the empty sequence. -/
def next_id (tasks : List Task) : Int :=
  (match tasks.map (fun t => t.id) with
    | [] => 0
    | x :: xs => xs.foldl max x) + 1

/-- Decimal value of a digit string, as `int` applied by `strptime` to a
matched group of digits. -/
def digitsVal (cs : List Char) : Nat :=
  cs.foldl (fun a c => a * 10 + (c.toNat - 48)) 0

/-- Split a character list on the literal `-` separators of the
`%Y-%m-%d` format. -/
def splitDash : List Char → List (List Char)
  | [] => [[]]
  | c :: rest =>
    if c = '-' then [] :: splitDash rest
    else
      match splitDash rest with
      | g :: gs => (c :: g) :: gs
      | [] => [[c]]

/-- Gregorian leap-year test, as in `datetime`. -/
def isLeap (y : Nat) : Bool :=
  y % 4 == 0 && (y % 100 != 0 || y % 400 == 0)

/-- Number of days in a month, as validated by the `datetime` constructor. -/
def daysInMonth (y m : Nat) : Nat :=
  if m = 2 then (if isLeap y then 29 else 28)
  else if m = 4 || m = 6 || m = 9 || m = 11 then 30
  else 31

/-- Model of `datetime.strptime(s, "%Y-%m-%d").date()` in CPython: the year
group is exactly four digits, month and day groups are one or two digits,
the three groups are separated by literal `-` with nothing left over, and
the `datetime` constructor then requires `1 ≤ year`, `1 ≤ month ≤ 12` and
`1 ≤ day ≤ daysInMonth`.  Returns the `(year, month, day)` triple, or
`none` when `strptime`/`datetime` would raise `ValueError`. -/
def parseDate (s : String) : Option (Nat × Nat × Nat) :=
  match splitDash s.data with
  | [ys, ms, ds] =>
    if ys.all (fun c => c.isDigit) && ys.length == 4
        && ms.all (fun c => c.isDigit) && (ms.length == 1 || ms.length == 2)
        && ds.all (fun c => c.isDigit) && (ds.length == 1 || ds.length == 2) then
      let y := digitsVal ys
      let m := digitsVal ms
      let d := digitsVal ds
      if 1 ≤ y && 1 ≤ m && m ≤ 12 && 1 ≤ d && d ≤ daysInMonth y m then
        some (y, m, d)
      else none
    else none
  | _ => none

/-- Comparison of two `datetime.date` values: lexicographic on
`(year, month, day)`. -/
def dateLt (a b : Nat × Nat × Nat) : Bool :=
  a.1 < b.1 || (a.1 == b.1 && (a.2.1 < b.2.1 || (a.2.1 == b.2.1 && a.2.2 < b.2.2)))

/-- `add_task` (lines 81–109).  `created_at` stands for `_now_iso()` and
`summaryText` for the value `_generate_summary(title, description)` would
return; both are external effects passed in as parameters.  Returns the
created task and the collection that `_save` persists. -/
def add_task (ts : List Task) (title description : String)
    (due_date : Option String) (priority : Int)
    (summarize : Bool) (summaryText : String) (created_at : String) :
    Task × List Task :=
  let priority := if priority < 1 || priority > 5 then 3 else priority
  let due_date :=
    match due_date with
    | none => none
    | some d =>
      if d = "" then some d
      else match parseDate d with
        | some _ => some d
        | none => none
  let task : Task :=
    { id := next_id ts, title := title, description := description,
      created_at := created_at, due_date := due_date, priority := priority,
      status := "pending",
      summary := if summarize then summaryText else "" }
  (task, ts ++ [task])

/-- Common shape of the `for t in tasks: if t["id"] == task_id: …` loops in
`complete_task`, `set_priority` and `edit_task`: update the first task whose
id matches and return the mutated list, or `none` when no task matches (in
which case the Python loop falls through without saving). -/
def updateFirst (task_id : Int) (upd : Task → Task) : List Task → Option (List Task)
  | [] => none
  | t :: rest =>
    if t.id == task_id then some (upd t :: rest)
    else (updateFirst task_id upd rest).map (fun r => t :: r)

/-- `complete_task` (lines 132–139). -/
def complete_task (ts : List Task) (task_id : Int) : Bool × List Task :=
  match updateFirst task_id (fun t => { t with status := "complete" }) ts with
  | some ts' => (true, ts')
  | none => (false, ts)

/-- `delete_task` (lines 142–148). -/
def delete_task (ts : List Task) (task_id : Int) : Bool × List Task :=
  let new_tasks := ts.filter (fun t => !(t.id == task_id))
  if new_tasks.length ≠ ts.length then (true, new_tasks) else (false, ts)

/-- `set_priority` (lines 174–184): the range check precedes the load, so an
out-of-range priority fails before anything could be saved. -/
def set_priority (ts : List Task) (task_id : Int) (priority : Int) :
    Bool × List Task :=
  if priority < 1 || priority > 5 then (false, ts)
  else
    match updateFirst task_id (fun t => { t with priority := priority }) ts with
    | some ts' => (true, ts')
    | none => (false, ts)

/-- Field updates `edit_task` applies to the matched task (lines 270–282):
each field changes only when the corresponding argument is supplied; a
supplied empty-string due date is falsy in Python and clears the date; a
supplied non-empty due date is kept only when `strptime` accepts it,
otherwise the old value stays. -/
def editUpdate (title description due_date : Option String) (t : Task) : Task :=
  let t := match title with
    | some s => { t with title := s }
    | none => t
  let t := match description with
    | some s => { t with description := s }
    | none => t
  match due_date with
  | none => t
  | some d =>
    if d = "" then { t with due_date := none }
    else match parseDate d with
      | some _ => { t with due_date := some d }
      | none => t

/-- `edit_task` (lines 259–285). -/
def edit_task (ts : List Task) (task_id : Int)
    (title description due_date : Option String) : Bool × List Task :=
  match updateFirst task_id (editUpdate title description due_date) ts with
  | some ts' => (true, ts')
  | none => (false, ts)

/-- Python `s.lower()` on the code points of `s` (ASCII case folding by
`Char.toLower`, applied uniformly on both sides of every comparison). -/
def lowerL (s : String) : List Char :=
  s.data.map Char.toLower

/-- Python `q in s` on code-point lists: `q` occurs as a contiguous
subsequence (the empty `q` always occurs). -/
def pyIn (q : List Char) : List Char → Bool
  | [] => q.isEmpty
  | c :: rest => q.isPrefixOf (c :: rest) || pyIn q rest

/-- Tier-1 condition of `search_tasks` (line 164): the lower-cased title
starts with the lower-cased query. -/
def tier1 (q : List Char) (t : Task) : Bool :=
  q.isPrefixOf (lowerL t.title)

/-- Tier-2 condition of `search_tasks` (line 167): the lower-cased query
occurs in the lower-cased title, description or summary. -/
def tier2 (q : List Char) (t : Task) : Bool :=
  pyIn q (lowerL t.title) || pyIn q (lowerL t.description)
    || pyIn q (lowerL t.summary)

/-- The `for t in tasks` loop of `search_tasks` (lines 158–168), building
`prefix_matches` and `other_matches` in collection order. -/
def searchLoop (q : List Char) : List Task → List Task × List Task
  | [] => ([], [])
  | t :: rest =>
    let r := searchLoop q rest
    if tier1 q t then (t :: r.1, r.2)
    else if tier2 q t then (r.1, t :: r.2)
    else r

/-- `search_tasks` (lines 151–171): prefix matches first, then the other
matches. -/
def search_tasks (ts : List Task) (query : String) : List Task :=
  let q := lowerL query
  let r := searchLoop q ts
  r.1 ++ r.2

/-- The effective due-date key of `list_tasks` (line 124):
`t.get("due_date") or "9999-12-31"`, where Python's `or` replaces both an
absent and an empty due date by the sentinel. -/
def dueStr (t : Task) : String :=
  match t.due_date with
  | none => "9999-12-31"
  | some s => if s = "" then "9999-12-31" else s

/-- Python string comparison `s1 < s2` on code-point lists: lexicographic
by code point, a strict prefix is smaller. -/
def strLtB : List Char → List Char → Bool
  | _, [] => false
  | [], _ :: _ => true
  | a :: as, b :: bs =>
    a.toNat < b.toNat || (a.toNat == b.toNat && strLtB as bs)

/-- Non-strict lexicographic order on the `sort_mode="due"` key
`(due, t["priority"])` of line 126, i.e. Python's
`not (key(b) < key(a))` for the tuple comparison. -/
def dueLe (a b : Task) : Bool :=
  strLtB (dueStr a).data (dueStr b).data
    || ((dueStr a).data == (dueStr b).data && a.priority ≤ b.priority)

/-- Non-strict lexicographic order on the `sort_mode="priority"` key
`(t["priority"], due)` of line 127. -/
def prioLe (a b : Task) : Bool :=
  a.priority < b.priority
    || (a.priority == b.priority
        && (strLtB (dueStr a).data (dueStr b).data
            || (dueStr a).data == (dueStr b).data))

/-- `list_tasks` (lines 112–129): filter by status, then Python's stable
`sorted` by the tuple key, modelled by the stable `List.mergeSort` under
the matching non-strict lexicographic order. -/
def list_tasks (ts : List Task) (filter_mode sort_mode : String) : List Task :=
  let ts :=
    if filter_mode == "pending" then ts.filter (fun t => t.status == "pending")
    else if filter_mode == "completed" then
      ts.filter (fun t => t.status == "complete")
    else ts
  if sort_mode == "due" then ts.mergeSort dueLe
  else ts.mergeSort prioLe

/-- The `for t in pending_tasks` overdue loop of `get_overview`
(lines 309–317): a truthy due date that parses to a date strictly before
`today` counts one; a falsy, unparseable one contributes nothing. -/
def overdueCount (today : Nat × Nat × Nat) : List Task → Nat
  | [] => 0
  | t :: rest =>
    (match t.due_date with
      | none => 0
      | some s =>
        if s = "" then 0
        else match parseDate s with
          | some d => if dateLt d today then 1 else 0
          | none => 0) + overdueCount today rest

/-- Result record of `get_overview`. -/
structure Overview where
  total : Nat
  incomplete : Nat
  high_priority : Nat
  overdue : Nat
deriving DecidableEq

/-- `get_overview` (lines 297–324), with the current UTC date passed in as
`today`. -/
def get_overview (ts : List Task) (today : Nat × Nat × Nat) : Overview :=
  let pending_tasks := ts.filter (fun t => t.status == "pending")
  { total := ts.length,
    incomplete := pending_tasks.length,
    high_priority := (pending_tasks.filter (fun t => t.priority ≤ 2)).length,
    overdue := overdueCount today pending_tasks }

/-- `clear_tasks` (lines 288–294): empties the collection, returns the
count removed (the persisted collection is `[]` either way: when the count
is zero nothing is saved but the loaded collection was already empty). -/
def clear_tasks (ts : List Task) : Nat × List Task :=
  if ts.length > 0 then (ts.length, []) else (ts.length, ts)

/-! ### Helper lemmas -/

theorem le_foldl_max (xs : List Int) (x : Int) : x ≤ xs.foldl max x := by
  induction xs generalizing x with
  | nil => simp
  | cons y ys ih =>
    simpa using le_trans (le_max_left x y) (ih (max x y))

theorem mem_le_foldl_max (xs : List Int) (x a : Int) (h : a ∈ xs) :
    a ≤ xs.foldl max x := by
  induction xs generalizing x with
  | nil => cases h
  | cons y ys ih =>
    rcases List.mem_cons.mp h with h | h
    · subst h
      simpa using le_trans (le_max_right x a) (le_foldl_max ys (max x a))
    · simpa using ih (max x y) h

theorem updateFirst_eq_none_iff (task_id : Int) (upd : Task → Task)
    (ts : List Task) :
    updateFirst task_id upd ts = none ↔ ∀ t ∈ ts, t.id ≠ task_id := by
  induction ts with
  | nil => simp [updateFirst]
  | cons t rest ih =>
    by_cases h : t.id = task_id
    · simp [updateFirst, h]
    · simp [updateFirst, h, Option.map_eq_none', ih]

theorem updateFirst_append (task_id : Int) (upd : Task → Task)
    (l₁ : List Task) (t : Task) (l₂ : List Task)
    (h₁ : ∀ u ∈ l₁, u.id ≠ task_id) (ht : t.id = task_id) :
    updateFirst task_id upd (l₁ ++ t :: l₂) = some (l₁ ++ upd t :: l₂) := by
  induction l₁ with
  | nil => simp [updateFirst, ht]
  | cons u us ih =>
    have hu : u.id ≠ task_id := h₁ u (by simp)
    simp [updateFirst, hu, ih (fun v hv => h₁ v (by simp [hv]))]

/-- A sample pending task used to instantiate quantified theorems. -/
def mkSample (i : Int) (due : Option String) (p : Int) : Task :=
  { id := i, title := "t", description := "", created_at := "c",
    due_date := due, priority := p, status := "pending", summary := "" }

/-! ### Claims -/

/-- C1 (counterexample): the id assigned by `add` is NOT always strictly
greater than every id ever previously assigned.  Starting from the empty
store, `add` assigns id 1; deleting that record and adding again assigns
id 1 a second time, because `_next_id` looks only at the ids still
present. -/
theorem add_reuses_deleted_max_id :
    (add_task [] "a" "" none 3 false "" "t1").1.id = 1
    ∧ (delete_task (add_task [] "a" "" none 3 false "" "t1").2 1).1 = true
    ∧ (add_task (delete_task (add_task [] "a" "" none 3 false "" "t1").2 1).2
        "b" "" none 3 false "" "t2").1.id = 1 := by
  decide

/-- C1 (amended): for every collection and every add call with a non-empty
title and priority in [1,5], the id assigned to the new record is strictly
greater than every id present in the collection at the time of the add
(`max existing + 1`, or `1` on an empty collection); ids of records that
were deleted earlier are not taken into account and may be reused. -/
theorem add_assigns_id_above_current (ts : List Task) (t : Task) (ht : t ∈ ts)
    (title description : String) (htitle : title ≠ "")
    (due : Option String) (p : Int) (hp : 1 ≤ p ∧ p ≤ 5)
    (sm : Bool) (sx ca : String) :
    t.id < (add_task ts title description due p sm sx ca).1.id := by
  have hid : (add_task ts title description due p sm sx ca).1.id = next_id ts := rfl
  have hmem : t.id ∈ ts.map (fun t => t.id) := List.mem_map_of_mem _ ht
  rw [hid]
  unfold next_id
  rcases hx : ts.map (fun t => t.id) with _ | ⟨x, xs⟩
  · rw [hx] at hmem; cases hmem
  · rw [hx] at hmem
    simp only [hx]
    rcases List.mem_cons.mp hmem with h | h
    · have := le_foldl_max xs t.id
      rw [h] at this ⊢
      omega
    · have := mem_le_foldl_max xs x t.id h
      omega

/-- Witness for `add_assigns_id_above_current` at a concrete store. -/
theorem add_assigns_id_above_current_witness :
    (mkSample 1 none 3).id
      < (add_task [mkSample 1 none 3] "a" "" none 3 false "" "t").1.id :=
  add_assigns_id_above_current [mkSample 1 none 3] (mkSample 1 none 3)
    (by simp) "a" "" (by decide) none 3 ⟨by decide, by decide⟩ false "" "t"

/-- C3: for every file state other than a parseable top-level JSON array —
missing, empty/unparseable, or parseable with a non-array top-level value —
`_load` returns the empty collection, and an `add` performed on that store
assigns id 1. -/
theorem load_fallback_empty_and_add_id_one (fs : FileState)
    (h : ∀ ts, fs ≠ FileState.parsed (JsonTop.arr ts))
    (title description : String) (due : Option String) (p : Int)
    (sm : Bool) (sx ca : String) :
    load fs = []
    ∧ (add_task (load fs) title description due p sm sx ca).1.id = 1 := by
  have hl : load fs = [] := by
    cases fs with
    | missing => rfl
    | unreadable => rfl
    | parsed j =>
      cases j with
      | arr ts => exact absurd rfl (h ts)
      | nonArr => rfl
  exact ⟨hl, by rw [hl]; rfl⟩

/-- Witness for `load_fallback_empty_and_add_id_one` on an unreadable
(empty or corrupt) file. -/
theorem load_fallback_witness :
    load FileState.unreadable = []
    ∧ (add_task (load FileState.unreadable) "a" "" none 3 false "" "t").1.id
        = 1 :=
  load_fallback_empty_and_add_id_one FileState.unreadable
    (fun _ h => nomatch h) "a" "" none 3 false "" "t"

/-- C8: `set_priority` returns false and persists the loaded collection
unchanged when the priority is outside [1,5] or the id is absent; when the
priority is in range and the id is present it sets exactly that record's
priority, saves, and returns true. -/
theorem set_priority_contract (ts : List Task) (task_id p : Int) :
    ((p < 1 ∨ 5 < p) → set_priority ts task_id p = (false, ts))
    ∧ ((∀ t ∈ ts, t.id ≠ task_id) → set_priority ts task_id p = (false, ts))
    ∧ (1 ≤ p → p ≤ 5 →
        ∀ l₁ t l₂, ts = l₁ ++ t :: l₂ → (∀ u ∈ l₁, u.id ≠ task_id) →
          t.id = task_id →
          set_priority ts task_id p
            = (true, l₁ ++ { t with priority := p } :: l₂)) := by
  refine ⟨?_, ?_, ?_⟩
  · intro h
    have : (p < 1 || p > 5) = true := by
      rcases h with h | h <;> simp [h]
    simp [set_priority, this]
  · intro h
    have hn := (updateFirst_eq_none_iff task_id
      (fun t => { t with priority := p }) ts).mpr h
    by_cases hr : (p < 1 || p > 5) = true
    · simp [set_priority, hr]
    · simp [set_priority, hr, hn]
  · intro h1 h5 l₁ t l₂ hts hl₁ ht
    have hr : (p < 1 || p > 5) = false := by
      simp only [Bool.or_eq_false_iff, decide_eq_false_iff_not]
      omega
    subst hts
    simp [set_priority, hr,
      updateFirst_append task_id (fun t => { t with priority := p }) l₁ t l₂ hl₁ ht]

/-- Witness for `set_priority_contract`: priorities 0 and 6 fail and leave
the store unchanged; priority 2 succeeds. -/
theorem set_priority_contract_witness :
    set_priority [mkSample 1 none 3] 1 0 = (false, [mkSample 1 none 3])
    ∧ set_priority [mkSample 1 none 3] 1 6 = (false, [mkSample 1 none 3])
    ∧ set_priority [mkSample 1 none 3] 1 2
        = (true, [{ mkSample 1 none 3 with priority := 2 }]) :=
  ⟨(set_priority_contract [mkSample 1 none 3] 1 0).1 (Or.inl (by decide)),
   (set_priority_contract [mkSample 1 none 3] 1 6).1 (Or.inr (by decide)),
   (set_priority_contract [mkSample 1 none 3] 1 2).2.2 (by decide) (by decide)
     [] (mkSample 1 none 3) [] rfl (by simp) rfl⟩

/-- C9: `complete` is idempotent.  If the id is absent it returns false and
leaves the store unchanged; if present, the call returns true and sets the
record's status to "complete", and a second call on the resulting store
again returns true and leaves the record complete. -/
theorem complete_idempotent_contract (ts : List Task) (task_id : Int) :
    ((∀ t ∈ ts, t.id ≠ task_id) → complete_task ts task_id = (false, ts))
    ∧ (∀ l₁ t l₂, ts = l₁ ++ t :: l₂ → (∀ u ∈ l₁, u.id ≠ task_id) →
        t.id = task_id →
        (complete_task ts task_id).1 = true
        ∧ (complete_task ts task_id).2
            = l₁ ++ { t with status := "complete" } :: l₂
        ∧ (complete_task (complete_task ts task_id).2 task_id).1 = true
        ∧ (complete_task (complete_task ts task_id).2 task_id).2
            = l₁ ++ { t with status := "complete" } :: l₂) := by
  constructor
  · intro h
    have hn := (updateFirst_eq_none_iff task_id
      (fun t => { t with status := "complete" }) ts).mpr h
    simp [complete_task, hn]
  · intro l₁ t l₂ hts hl₁ ht
    subst hts
    have h1 : complete_task (l₁ ++ t :: l₂) task_id
        = (true, l₁ ++ { t with status := "complete" } :: l₂) := by
      simp [complete_task,
        updateFirst_append task_id (fun t => { t with status := "complete" })
          l₁ t l₂ hl₁ ht]
    have h2 : complete_task (l₁ ++ { t with status := "complete" } :: l₂)
        task_id = (true, l₁ ++ { t with status := "complete" } :: l₂) := by
      simp [complete_task,
        updateFirst_append task_id (fun t => { t with status := "complete" })
          l₁ { t with status := "complete" } l₂ hl₁ ht]
    rw [h1]
    exact ⟨rfl, rfl, by rw [h2], by rw [h2]⟩

/-- Witness for `complete_idempotent_contract` on a one-task store. -/
theorem complete_idempotent_contract_witness :
    (complete_task [mkSample 1 none 3] 1).1 = true
    ∧ (complete_task (complete_task [mkSample 1 none 3] 1).2 1).1 = true :=
  let h := (complete_idempotent_contract [mkSample 1 none 3] 1).2
    [] (mkSample 1 none 3) [] rfl (by simp) rfl
  ⟨h.1, h.2.2.1⟩

/-- C10: whenever `complete`, `delete`, `edit` or `set_priority` returns
false, nothing is saved and the persisted collection is exactly the one
that was loaded. -/
theorem failed_mutation_leaves_store (ts : List Task) (task_id p : Int)
    (ti de du : Option String) :
    ((complete_task ts task_id).1 = false → (complete_task ts task_id).2 = ts)
    ∧ ((delete_task ts task_id).1 = false → (delete_task ts task_id).2 = ts)
    ∧ ((edit_task ts task_id ti de du).1 = false
        → (edit_task ts task_id ti de du).2 = ts)
    ∧ ((set_priority ts task_id p).1 = false
        → (set_priority ts task_id p).2 = ts) := by
  refine ⟨?_, ?_, ?_, ?_⟩
  · rcases hu : updateFirst task_id (fun t => { t with status := "complete" }) ts
      with _ | l
    · simp [complete_task, hu]
    · simp [complete_task, hu]
  · by_cases h : (ts.filter fun t => !(t.id == task_id)).length ≠ ts.length
    · simp [delete_task, h]
    · simp [delete_task, h]
  · rcases hu : updateFirst task_id (editUpdate ti de du) ts with _ | l
    · simp [edit_task, hu]
    · simp [edit_task, hu]
  · by_cases hr : (p < 1 || p > 5) = true
    · simp [set_priority, hr]
    · rcases hu : updateFirst task_id (fun t => { t with priority := p }) ts
        with _ | l
      · simp [set_priority, hr, hu]
      · simp [set_priority, hr, hu]

/-- Witness for `failed_mutation_leaves_store`: all four operations fail on
a store that does not contain id 7 and leave it untouched. -/
theorem failed_mutation_leaves_store_witness :
    (complete_task [mkSample 1 none 3] 7).2 = [mkSample 1 none 3]
    ∧ (delete_task [mkSample 1 none 3] 7).2 = [mkSample 1 none 3]
    ∧ (edit_task [mkSample 1 none 3] 7 none none none).2 = [mkSample 1 none 3]
    ∧ (set_priority [mkSample 1 none 3] 7 0).2 = [mkSample 1 none 3] :=
  let h := failed_mutation_leaves_store [mkSample 1 none 3] 7 0 none none none
  ⟨h.1 (by decide), h.2.1 (by decide), h.2.2.1 (by decide), h.2.2.2 (by decide)⟩

/-- C7 (counterexample): a supplied empty-string due date is not a valid
`YYYY-MM-DD` date, yet `edit` does not preserve the prior value — Python's
truthiness test routes `""` to the clearing branch, setting the date to
absent. -/
theorem edit_empty_due_date_clears :
    parseDate "" = none
    ∧ (mkSample 1 (some "2025-01-01") 3).due_date = some "2025-01-01"
    ∧ (edit_task [mkSample 1 (some "2025-01-01") 3] 1 none none (some "")).2
        = [{ mkSample 1 (some "2025-01-01") 3 with due_date := none }] := by
  decide

/-- C7 (amended): `edit` returns false exactly when the id is absent (and
then changes nothing); on the first record with the given id it updates
exactly the supplied fields: title and description are replaced when
supplied, a supplied non-empty due date that fails to parse leaves the
prior due date unchanged, a supplied empty-string due date clears it to
absent, and id, created_at, priority, status and summary are never
touched. -/
theorem edit_task_contract (ts : List Task) (task_id : Int)
    (ti de du : Option String) :
    ((edit_task ts task_id ti de du).1 = false ↔ ∀ t ∈ ts, t.id ≠ task_id)
    ∧ (∀ l₁ t l₂, ts = l₁ ++ t :: l₂ → (∀ u ∈ l₁, u.id ≠ task_id) →
        t.id = task_id →
        edit_task ts task_id ti de du
          = (true, l₁ ++ editUpdate ti de du t :: l₂))
    ∧ (∀ t, (editUpdate ti de du t).id = t.id
        ∧ (editUpdate ti de du t).created_at = t.created_at
        ∧ (editUpdate ti de du t).priority = t.priority
        ∧ (editUpdate ti de du t).status = t.status
        ∧ (editUpdate ti de du t).summary = t.summary)
    ∧ (∀ t, (editUpdate ti de du t).title = ti.getD t.title)
    ∧ (∀ t, (editUpdate ti de du t).description = de.getD t.description)
    ∧ (∀ t, (editUpdate ti de du t).due_date
        = match du with
          | none => t.due_date
          | some d =>
            if d = "" then none
            else if (parseDate d).isSome then some d else t.due_date) := by
  refine ⟨?_, ?_, ?_, ?_, ?_, ?_⟩
  · rcases hu : updateFirst task_id (editUpdate ti de du) ts with _ | l
    · simpa [edit_task, hu] using (updateFirst_eq_none_iff _ _ _).mp hu
    · have hne : ¬ (∀ t ∈ ts, t.id ≠ task_id) := fun hall => by
        rw [(updateFirst_eq_none_iff _ _ _).mpr hall] at hu
        cases hu
      simp [edit_task, hu, hne]
  · intro l₁ t l₂ hts hl₁ ht
    subst hts
    simp [edit_task,
      updateFirst_append task_id (editUpdate ti de du) l₁ t l₂ hl₁ ht]
  · intro t
    rcases du with _ | d
    · cases ti <;> cases de <;> simp [editUpdate]
    · cases ti <;> cases de <;> by_cases hd : d = "" <;>
        rcases hp : parseDate d with _ | v <;>
          simp [editUpdate, hd, hp]
  · intro t
    rcases du with _ | d
    · cases ti <;> cases de <;> simp [editUpdate]
    · cases ti <;> cases de <;> by_cases hd : d = "" <;>
        rcases hp : parseDate d with _ | v <;>
          simp [editUpdate, hd, hp]
  · intro t
    rcases du with _ | d
    · cases ti <;> cases de <;> simp [editUpdate]
    · cases ti <;> cases de <;> by_cases hd : d = "" <;>
        rcases hp : parseDate d with _ | v <;>
          simp [editUpdate, hd, hp]
  · intro t
    rcases du with _ | d
    · cases ti <;> cases de <;> simp [editUpdate]
    · cases ti <;> cases de <;> by_cases hd : d = "" <;>
        rcases hp : parseDate d with _ | v <;>
          simp [editUpdate, hd, hp]

/-- Witness for `edit_task_contract`: an invalid non-empty due date is
ignored while the supplied title is applied. -/
theorem edit_task_contract_witness :
    edit_task [mkSample 1 (some "2025-01-01") 3] 1 (some "n") none
        (some "bad-date")
      = (true, [{ mkSample 1 (some "2025-01-01") 3 with title := "n" }]) := by
  have h := (edit_task_contract [mkSample 1 (some "2025-01-01") 3] 1
    (some "n") none (some "bad-date")).2.1
    [] (mkSample 1 (some "2025-01-01") 3) [] rfl (by simp) rfl
  exact h.trans (by decide)

theorem searchLoop_eq (q : List Char) (ts : List Task) :
    searchLoop q ts
      = (ts.filter (tier1 q), ts.filter fun t => !tier1 q t && tier2 q t) := by
  induction ts with
  | nil => rfl
  | cons t rest ih =>
    by_cases h1 : tier1 q t
    · simp [searchLoop, ih, h1]
    · by_cases h2 : tier2 q t
      · simp [searchLoop, ih, h1, h2]
      · simp [searchLoop, ih, h1, h2]

/-- C4: `search` returns exactly the Tier-1 records (lower-cased title
starts with the lower-cased query) in collection order, followed by the
records not in Tier 1 whose lower-cased title, description or summary
contains the query, in collection order; the empty query returns the full
collection in order; and no record occurs twice (for a duplicate-free
collection). -/
theorem search_two_tier (ts : List Task) (q : String) :
    search_tasks ts q
      = ts.filter (tier1 (lowerL q))
        ++ ts.filter (fun t => !tier1 (lowerL q) t && tier2 (lowerL q) t)
    ∧ search_tasks ts "" = ts
    ∧ (ts.Nodup → (search_tasks ts q).Nodup) := by
  have hchar : search_tasks ts q
      = ts.filter (tier1 (lowerL q))
        ++ ts.filter (fun t => !tier1 (lowerL q) t && tier2 (lowerL q) t) := by
    simp [search_tasks, searchLoop_eq]
  refine ⟨hchar, ?_, ?_⟩
  · have h0 : search_tasks ts ""
        = ts.filter (tier1 (lowerL ""))
          ++ ts.filter (fun t => !tier1 (lowerL "") t && tier2 (lowerL "") t) := by
      simp [search_tasks, searchLoop_eq]
    have h1 : ∀ t, tier1 (lowerL "") t = true := fun t =>
      show List.isPrefixOf [] (lowerL t.title) = true from List.isPrefixOf_nil_left
    rw [h0, List.filter_eq_self.mpr (fun a _ => h1 a),
      List.filter_eq_nil_iff.mpr (fun a _ => by simp [h1 a]),
      List.append_nil]
  · intro hnd
    rw [hchar]
    refine List.Nodup.append (hnd.filter _) (hnd.filter _) ?_
    intro a ha1 ha2
    have h1 := (List.mem_filter.mp ha1).2
    have h2 := (List.mem_filter.mp ha2).2
    rw [h1] at h2
    simp at h2

/-- A sample task for the search example of the spec. -/
def mkSearch (i : Int) (ti de : String) : Task :=
  { id := i, title := ti, description := de, created_at := "c",
    due_date := none, priority := 3, status := "pending", summary := "" }

/-- The four-record collection of the spec's search-ranking example. -/
def exTasks : List Task :=
  [mkSearch 1 "Brush teeth" "", mkSearch 2 "Do laundry" "Buy bleach",
   mkSearch 3 "Buy groceries" "", mkSearch 4 "Remember birthday" ""]

/-- Witness for `search_two_tier` on the spec's example: the result of
query "b" is duplicate-free, and its ids come out in the two-tier order
[1, 3, 2, 4]. -/
theorem search_two_tier_witness :
    (search_tasks exTasks "b").Nodup
    ∧ (search_tasks exTasks "b").map Task.id = [1, 3, 2, 4] :=
  ⟨(search_two_tier exTasks "b").2.2 (by decide), by decide⟩

theorem overdueCount_pending_eq_countP (today : Nat × Nat × Nat)
    (ts : List Task) :
    overdueCount today (ts.filter fun t => t.status == "pending")
      = ts.countP (fun t => t.status == "pending"
          && match t.due_date with
            | some s =>
              match parseDate s with
              | some d => dateLt d today
              | none => false
            | none => false) := by
  induction ts with
  | nil => rfl
  | cons t rest ih =>
    by_cases hs : t.status = "pending"
    · rcases hd : t.due_date with _ | s
      · simp [List.filter_cons, List.countP_cons, overdueCount, hs, hd, ih]
      · by_cases he : s = ""
        · subst he
          simp [List.filter_cons, List.countP_cons, overdueCount, hs, hd, ih,
            show parseDate "" = none from rfl]
        · rcases hp : parseDate s with _ | d
          · simp [List.filter_cons, List.countP_cons, overdueCount, hs, hd,
              he, hp, ih]
          · by_cases hlt : dateLt d today = true <;>
              simp [List.filter_cons, List.countP_cons, overdueCount, hs, hd,
                he, hp, hlt, ih] <;> omega
    · simp [List.filter_cons, List.countP_cons, hs, ih]

/-- C6: `overview` reports total = collection size, incomplete = number of
pending records, high_priority = number of pending records of priority at
most 2, and overdue = number of pending records whose due date is present,
parses as a calendar date, and is strictly before the current date;
records with an absent or unparseable due date never count as overdue. -/
theorem get_overview_counts (ts : List Task) (today : Nat × Nat × Nat) :
    (get_overview ts today).total = ts.length
    ∧ (get_overview ts today).incomplete
        = ts.countP (fun t => t.status == "pending")
    ∧ (get_overview ts today).high_priority
        = ts.countP (fun t => t.status == "pending" && t.priority ≤ 2)
    ∧ (get_overview ts today).overdue
        = ts.countP (fun t => t.status == "pending"
            && match t.due_date with
              | some s =>
                match parseDate s with
                | some d => dateLt d today
                | none => false
              | none => false) := by
  refine ⟨rfl, (List.countP_eq_length_filter _ ts).symm, ?_,
    overdueCount_pending_eq_countP today ts⟩
  show ((ts.filter fun t => t.status == "pending").filter
      fun t => decide (t.priority ≤ 2)).length = _
  rw [List.filter_filter, List.countP_eq_length_filter]
  exact congrArg List.length
    (List.filter_congr fun a _ => by rw [Bool.and_comm])

theorem strLtB_irrefl (cs : List Char) : strLtB cs cs = false := by
  induction cs with
  | nil => rfl
  | cons c cs ih => simp [strLtB, ih]

theorem strLtB_trans : ∀ as bs cs : List Char,
    strLtB as bs = true → strLtB bs cs = true → strLtB as cs = true := by
  intro as
  induction as with
  | nil =>
    intro bs cs h1 h2
    cases bs with
    | nil => cases h1
    | cons b bs' =>
      cases cs with
      | nil => cases h2
      | cons c cs' => rfl
  | cons a as ih =>
    intro bs cs h1 h2
    cases bs with
    | nil => cases h1
    | cons b bs' =>
      cases cs with
      | nil => cases h2
      | cons c cs' =>
        simp only [strLtB, Bool.or_eq_true, Bool.and_eq_true,
          decide_eq_true_eq, beq_iff_eq] at h1 h2 ⊢
        rcases h1 with h1 | ⟨hab, h1'⟩ <;> rcases h2 with h2 | ⟨hbc, h2'⟩
        · left; omega
        · left; omega
        · left; omega
        · right; exact ⟨by omega, ih bs' cs' h1' h2'⟩

theorem strLtB_trichotomy : ∀ as bs : List Char,
    strLtB as bs = true ∨ as = bs ∨ strLtB bs as = true := by
  intro as
  induction as with
  | nil =>
    intro bs
    cases bs with
    | nil => exact Or.inr (Or.inl rfl)
    | cons b bs' => exact Or.inl rfl
  | cons a as ih =>
    intro bs
    cases bs with
    | nil => exact Or.inr (Or.inr rfl)
    | cons b bs' =>
      rcases Nat.lt_trichotomy a.toNat b.toNat with h | h | h
      · exact Or.inl (by simp [strLtB, h])
      · have hab : a = b := Char.eq_of_val_eq (UInt32.toNat.inj h)
        subst hab
        rcases ih bs' with h' | h' | h'
        · exact Or.inl (by simp [strLtB, h'])
        · exact Or.inr (Or.inl (by rw [h']))
        · exact Or.inr (Or.inr (by simp [strLtB, h']))
      · exact Or.inr (Or.inr (by simp [strLtB, h]))

theorem strLtB_asymm (as bs : List Char) (h : strLtB as bs = true) :
    strLtB bs as = false := by
  by_contra hc
  rw [Bool.not_eq_false] at hc
  have := strLtB_trans as bs as h hc
  rw [strLtB_irrefl] at this
  cases this

theorem dueLe_trans : ∀ a b c : Task, dueLe a b → dueLe b c → dueLe a c := by
  intro a b c h1 h2
  simp only [dueLe, Bool.or_eq_true, Bool.and_eq_true, beq_iff_eq,
    decide_eq_true_eq] at h1 h2 ⊢
  rcases h1 with h1 | ⟨e1, p1⟩ <;> rcases h2 with h2 | ⟨e2, p2⟩
  · exact Or.inl (strLtB_trans _ _ _ h1 h2)
  · exact Or.inl (by rw [← e2]; exact h1)
  · exact Or.inl (by rw [e1]; exact h2)
  · exact Or.inr ⟨e1.trans e2, le_trans p1 p2⟩

theorem dueLe_total : ∀ a b : Task, dueLe a b || dueLe b a := by
  intro a b
  simp only [dueLe, Bool.or_eq_true, Bool.and_eq_true, beq_iff_eq,
    decide_eq_true_eq]
  rcases strLtB_trichotomy (dueStr a).data (dueStr b).data with h | h | h
  · exact Or.inl (Or.inl h)
  · rcases le_total a.priority b.priority with hp | hp
    · exact Or.inl (Or.inr ⟨h, hp⟩)
    · exact Or.inr (Or.inr ⟨h.symm, hp⟩)
  · exact Or.inr (Or.inl h)

theorem mergeSort_dueLe_pairwise (l : List Task) :
    (l.mergeSort dueLe).Pairwise fun a b => dueLe a b = true :=
  List.sorted_mergeSort dueLe_trans dueLe_total l

/-- C5 (amended): under `sort_mode="due"` the output is sorted by the key
`(effective due string, priority)` in non-strict lexicographic order — so
within dated records the primary key is the due date ascending and the
secondary key is priority ascending — and no record with an absent
due date ever precedes a record whose due-date key is strictly below the
sentinel `"9999-12-31"`.  A record dated exactly `"9999-12-31"` shares the
key of the dateless records, and their relative order is decided by
priority, not by datedness (see the counterexample). -/
theorem list_tasks_due_order (ts : List Task) (fm : String) :
    ((list_tasks ts fm "due").Pairwise fun a b =>
        a.due_date = none → strLtB (dueStr b).data "9999-12-31".data = false)
    ∧ ((list_tasks ts fm "due").Pairwise fun a b => dueLe a b = true) := by
  have heq : list_tasks ts fm "due"
      = (if fm == "pending" then ts.filter (fun t => t.status == "pending")
        else if fm == "completed" then
          ts.filter (fun t => t.status == "complete")
        else ts).mergeSort dueLe := by
    simp [list_tasks]
  have key := mergeSort_dueLe_pairwise
    (if fm == "pending" then ts.filter (fun t => t.status == "pending")
      else if fm == "completed" then ts.filter (fun t => t.status == "complete")
      else ts)
  constructor
  · rw [heq]
    refine List.Pairwise.imp ?_ key
    intro a b hab hnone
    have ha : dueStr a = "9999-12-31" := by simp [dueStr, hnone]
    simp only [dueLe, Bool.or_eq_true, Bool.and_eq_true, beq_iff_eq,
      decide_eq_true_eq] at hab
    rw [ha] at hab
    rcases hab with h | ⟨e, _⟩
    · exact strLtB_asymm _ _ h
    · rw [← e]
      exact strLtB_irrefl _
  · rw [heq]
    exact key

/-- A dated task with the sentinel date `9999-12-31` and low priority. -/
def cexDated : Task := mkSample 1 (some "9999-12-31") 5

/-- A dateless task with high priority. -/
def cexDateless : Task := mkSample 2 none 1

unseal List.merge List.mergeSort in
/-- C5 (counterexample): a record with an absent due date does NOT always
sort after every record with a present due date: against a record dated
`"9999-12-31"` (a valid date equal to the sentinel), the dateless record
with the smaller priority sorts first. -/
theorem due_sort_dateless_not_always_last :
    cexDated.due_date = some "9999-12-31"
    ∧ cexDateless.due_date = none
    ∧ list_tasks [cexDated, cexDateless] "all" "due"
        = [cexDateless, cexDated] :=
  ⟨rfl, rfl, rfl⟩

/-- Witness for `list_tasks_due_order` on a concrete collection. -/
theorem list_tasks_due_order_witness :
    (list_tasks [cexDated, cexDateless] "all" "due").Pairwise
      fun a b => dueLe a b = true :=
  (list_tasks_due_order [cexDated, cexDateless] "all").2

end TaskManager
